import Mathlib

/-!
Shallow embedding of src/app.py (Project-Tracker-Automation-Tool): a
single-page dashboard that reads project records from a remote
spreadsheet, derives per-record fields, filters, summarises and exports
them, and writes back on form submission.

The backing store (the spreadsheet) is modelled as a list of rows of
string cells, addressed by 1-indexed (row, column) coordinates as in the
gspread API.  The in-memory pandas DataFrame is modelled record-wise:
one structure per row, with the derive block of src/app.py lines 37-42
as a pure function of the record and the current timestamp.
-/

namespace ProjectTracker

/-- One row of the backing store: a spreadsheet row of string cells. -/
abbrev Row := List String

/-- The backing store: the remote sheet as a list of rows.  The gspread
API addresses it by 1-indexed (row, column) coordinates. -/
abbrev Store := List Row

/-- The fixed five-column header written by the header-setup block
(src/app.py line 22). -/
def headerRow : Row :=
  ["Project Name", "Description", "Status", "Start Date", "Due Date"]

/-- sheet.append_row(values): appends one row after the last row. -/
def append_row (s : Store) (r : Row) : Store := s ++ [r]

/-- sheet.update_cell(row, col, value) with 1-indexed coordinates
(src/app.py line 91).  Out-of-range coordinates leave the store
unchanged; the program only issues in-range writes. -/
def update_cell (s : Store) (row col : Nat) (v : String) : Store :=
  match s[row - 1]? with
  | some r => s.set (row - 1) (r.set (col - 1) v)
  | none => s

/-- Read the cell at 1-indexed (row, col). -/
def getCell (s : Store) (row col : Nat) : Option String :=
  s[row - 1]?.bind fun r => r[col - 1]?

/-- Header auto-setup (src/app.py lines 21-22): if the sheet has zero
rows, append the fixed header row; otherwise do nothing. -/
def initSheet (s : Store) : Store :=
  if s.length = 0 then append_row s headerRow else s

/-- ASCII whitespace as recognised by Python str.strip(). -/
def isPySpace (c : Char) : Bool :=
  c = ' ' || c = '\t' || c = '\n' || c = '\r' || c = '\x0b' || c = '\x0c'

/-- Python str.strip(): remove whitespace from both ends. -/
def pyStrip (s : String) : String :=
  ⟨((s.data.dropWhile isPySpace).reverse.dropWhile isPySpace).reverse⟩

/-- One pass of Python str.title(): an alphabetic character is uppercased
when the previous character was not alphabetic and lowercased otherwise;
other characters pass through and reset the state. -/
def pyTitleAux : Bool → List Char → List Char
  | _, [] => []
  | prev, c :: cs =>
    if c.isAlpha then
      (if prev then c.toLower else c.toUpper) :: pyTitleAux true cs
    else
      c :: pyTitleAux false cs

/-- Python str.title(). -/
def pyTitle (s : String) : String := ⟨pyTitleAux false s.data⟩

/-- Status normalisation applied on load (src/app.py line 40):
df["Status"].str.strip().str.title(). -/
def normalizeStatus (s : String) : String := pyTitle (pyStrip s)

/-- progress_map (src/app.py lines 29-34).  pandas Series.map yields NaN
for a key absent from the dict; NaN is modelled as none. -/
def progress_map (s : String) : Option Nat :=
  if s = "Not Started" then some 0
  else if s = "In Progress" then some 50
  else if s = "On Hold" then some 25
  else if s = "Completed" then some 100
  else none

/-- status_options = list(progress_map.keys()) (src/app.py line 61), in
dict insertion order. -/
def status_options : List String :=
  ["Not Started", "In Progress", "On Hold", "Completed"]

/-- A pandas Timestamp, split into whole days since the epoch and the
second within the day.  pd.Timestamp.today() carries the wall-clock time
of day, so its sec component is in general nonzero; a value parsed from
a plain YYYY-MM-DD cell sits at midnight (sec = 0). -/
structure Timestamp where
  day : Int
  sec : Nat
deriving DecidableEq

/-- Timestamp subtraction followed by Timedelta .days: the floor of the
signed difference measured in days (src/app.py line 41). -/
def timedeltaDays (a b : Timestamp) : Int :=
  Int.fdiv ((a.day - b.day) * 86400 + (a.sec : Int) - (b.sec : Int)) 86400

/-- A stored record as produced by sheet.get_all_records(): the five
cells keyed by the header labels.  The two date cells are modelled
already parsed to epoch-day numbers (pd.to_datetime delegates parsing to
an external library; per the spec a malformed date is fatal and no claim
exercises that path). -/
structure RawRecord where
  projectName : String
  description : String
  status : String
  startDay : Int
  dueDay : Int
deriving DecidableEq

/-- A record after the derive block (src/app.py lines 37-42): Status
normalised, Days Left and Progress computed. -/
structure DRecord where
  projectName : String
  description : String
  status : String
  startDay : Int
  dueDay : Int
  daysLeft : Int
  progress : Option Nat
deriving DecidableEq

/-- The derive block applied to one record at the current timestamp:
Status is stripped and title-cased, Days Left is the floored day
difference between the Due Date (midnight) and now, Progress is the
progress_map lookup on the normalised Status. -/
def deriveRecord (now : Timestamp) (r : RawRecord) : DRecord :=
  { projectName := r.projectName
    description := r.description
    status := normalizeStatus r.status
    startDay := r.startDay
    dueDay := r.dueDay
    daysLeft := timedeltaDays ⟨r.dueDay, 0⟩ now
    progress := progress_map (normalizeStatus r.status) }

/-- Load-and-derive over the whole table.  On the empty table the derive
block is skipped in the source; mapping over [] agrees with that. -/
def deriveAll (now : Timestamp) (rs : List RawRecord) : List DRecord :=
  rs.map (deriveRecord now)

/-- filtered_df = df[df["Status"].isin(status_filter)] (src/app.py
line 74); on an empty table the source takes an empty DataFrame, which
agrees with filtering the empty list. -/
def filterByStatus (rs : List DRecord) (sel : List String) : List DRecord :=
  rs.filter fun r => sel.contains r.status

/-- on_track = df[df["Status"].isin(["In Progress", "Completed"])].shape[0]
(src/app.py line 100). -/
def onTrackCount (rs : List DRecord) : Nat :=
  (rs.filter fun r => ["In Progress", "Completed"].contains r.status).length

/-- Scale a positive fraction n / d into the binary64 significand range
[2^52, 2^53) by doubling the numerator (a scale-up) or the denominator
(a scale-down), counting net scale-ups in k; the fuel bound 1200 covers
the whole binary64 exponent range.  Returns (n, d, k) with
(n / d) = (original value) * 2^k once the range is reached. -/
def sigScale : ℕ → ℤ → ℤ → ℤ → ℤ × ℤ × ℤ
  | 0, n, d, k => (n, d, k)
  | fuel + 1, n, d, k =>
    if n < 4503599627370496 * d then sigScale fuel (2 * n) d (k + 1)
    else if 9007199254740992 * d ≤ n then sigScale fuel n (2 * d) (k - 1)
    else (n, d, k)

/-- Round the fraction n / d (with d > 0) to the nearest integer, ties
to even — the IEEE-754 default rounding applied to a scaled
significand. -/
def roundHalfEven (n d : ℤ) : ℤ :=
  if 2 * (n % d) < d then n / d
  else if d < 2 * (n % d) then n / d + 1
  else if (n / d) % 2 = 0 then n / d else n / d + 1

/-- The IEEE-754 binary64 value (round to nearest, ties to even;
exponent range taken as unbounded, exact for this program's mid-range
percentage arithmetic) nearest to the rational n / d, returned as an
exact fraction pair (numerator, positive denominator): the value is
scaled into the binade [2^52, 2^53), its 53-bit significand is rounded
to an integer m, and the scaling by 2^k is undone. -/
def fl (n d : ℤ) : ℤ × ℤ :=
  if n ≤ 0 ∨ d ≤ 0 then (0, 1)
  else
    let s := sigScale 1200 n d 0
    let m := roundHalfEven s.1 s.2.1
    if 0 ≤ s.2.2 then (m, 2 ^ s.2.2.toNat) else (m * 2 ^ (-s.2.2).toNat, 1)

/-- The on-track percentage in the summary line (src/app.py line 102):
int((on_track / total_projects) * 100).  Both counts are Python ints,
so the true division is a correctly rounded binary64 operation; 100
converts exactly, so the multiplication is one more correctly rounded
binary64 operation on the exact product; int() truncates toward zero,
the floor of the nonnegative result. -/
def summaryPct (rs : List DRecord) : ℤ :=
  let q := fl (onTrackCount rs : ℤ) (rs.length : ℤ)
  let p := fl (q.1 * 100) q.2
  p.1 / p.2

/-- A Python datetime.date as produced by the two st.date_input widgets
of the add form. -/
structure PyDate where
  year : Nat
  month : Nat
  day : Nat
deriving DecidableEq

/-- Zero-pad a number to two digits, as Python %02d. -/
def pad2 (n : Nat) : String :=
  if n < 10 then "0" ++ toString n else toString n

/-- Zero-pad a number to four digits, as Python %04d. -/
def pad4 (n : Nat) : String :=
  if n < 10 then "000" ++ toString n
  else if n < 100 then "00" ++ toString n
  else if n < 1000 then "0" ++ toString n
  else toString n

/-- Python str() on a datetime.date: the ISO form YYYY-MM-DD. -/
def dateStr (d : PyDate) : String :=
  pad4 d.year ++ "-" ++ pad2 d.month ++ "-" ++ pad2 d.day

/-- The add-form submit handler (src/app.py lines 66-67): when the form
is submitted and Project Name is truthy (non-empty), append one row with
the five raw field values, the dates rendered by str(); otherwise do
nothing. -/
def addProject (s : Store) (pname desc status : String) (sdate ddate : PyDate) : Store :=
  if pname = "" then s
  else append_row s [pname, desc, status, dateStr sdate, dateStr ddate]

/-- The per-record status-update submit handler (src/app.py line 91):
sheet.update_cell(i + 2, 3, new_status), where i is the record's label
in the in-memory table — the pandas RangeIndex, 0-based, assigned at
load and preserved by filtering. -/
def updateStatus (s : Store) (i : Nat) (newStatus : String) : Store :=
  update_cell s (i + 2) 3 newStatus

/-- Join character lists with a separator character between consecutive
pieces. -/
def joinSep (sep : Char) : List (List Char) → List Char
  | [] => []
  | [r] => r
  | r :: rs => r ++ sep :: joinSep sep rs

/-- True when a cell needs no quoting under the csv module's minimal
quoting (csv.QUOTE_MINIMAL, the pandas to_csv default): it contains no
delimiter, quote character, LF or CR. -/
def simpleCell (c : String) : Bool :=
  c.data.all fun ch => ch ≠ ',' && ch ≠ '"' && ch ≠ '\n' && ch ≠ '\r'

/-- Double every quote character, as the csv writer does inside a quoted
field (doublequote=True, the default). -/
def escQuote : List Char → List Char
  | [] => []
  | c :: cs => if c = '"' then '"' :: '"' :: escQuote cs else c :: escQuote cs

/-- One serialized cell: written bare when no quoting is needed,
otherwise wrapped in quotes with inner quotes doubled. -/
def encodeCell (c : String) : List Char :=
  if simpleCell c then c.data else '"' :: (escQuote c.data ++ ['"'])

/-- One serialized CSV line: the encoded cells joined with commas,
terminated by LF (the pandas to_csv line terminator). -/
def csvLine (r : List String) : List Char :=
  joinSep ',' (r.map encodeCell) ++ ['\n']

/-- filtered_df.to_csv(index=False) (src/app.py line 159): the header
row and each data row become comma-joined, LF-terminated lines, cells
minimally quoted. -/
def toCsv (t : List (List String)) : String :=
  ⟨(t.map csvLine).flatten⟩

/-- Read a quoted cell body after its opening quote: a doubled quote
stands for one quote character, a single quote closes the cell; an
unterminated cell is a parse error. -/
def parseQuoted (acc : List Char) : List Char → Option (List Char × List Char)
  | [] => none
  | c :: rest =>
    if c = '"' then
      match rest with
      | [] => some (acc, [])
      | c2 :: rest2 =>
        if c2 = '"' then parseQuoted (acc ++ ['"']) rest2
        else some (acc, c2 :: rest2)
    else parseQuoted (acc ++ [c]) rest

/-- Read a bare cell: everything up to the next delimiter or line
terminator, which is left in the remainder. -/
def parseUnquoted : List Char → List Char × List Char
  | [] => ([], [])
  | c :: rest =>
    if c = ',' || c = '\n' then ([], c :: rest)
    else (c :: (parseUnquoted rest).1, (parseUnquoted rest).2)

/-- Read one cell: quoted when it opens with a quote character, bare
otherwise. -/
def parseCell (input : List Char) : Option (List Char × List Char) :=
  match input with
  | [] => some ([], [])
  | c :: rest =>
    if c = '"' then parseQuoted [] rest else some (parseUnquoted (c :: rest))

/-- Read the cells of one line up to and including its LF terminator.
The fuel decreases once per cell; each cell consumes at least its
trailing delimiter or terminator, so (input length + 1) is always
enough. -/
def parseRowAux : ℕ → List Char → Option (List String × List Char)
  | 0, _ => none
  | fuel + 1, input =>
    match parseCell input with
    | none => none
    | some (cell, rest) =>
      match rest with
      | ',' :: rest2 =>
        match parseRowAux fuel rest2 with
        | none => none
        | some (cells, rest3) => some (String.mk cell :: cells, rest3)
      | '\n' :: rest2 => some ([String.mk cell], rest2)
      | _ => none

/-- Read LF-terminated lines until the input is exhausted; the fuel
decreases once per line. -/
def parseRowsAux : ℕ → List Char → Option (List (List String))
  | 0, input => if input = [] then some [] else none
  | fuel + 1, input =>
    if input = [] then some []
    else
      match parseRowAux (input.length + 1) input with
      | none => none
      | some (row, rest) =>
        match parseRowsAux fuel rest with
        | none => none
        | some rows => some (row :: rows)

/-- Parse comma-separated text back into a grid of rows of cells,
honouring minimal quoting — the reader side of the round trip. -/
def parseCsv (s : String) : Option (List (List String)) :=
  parseRowsAux (s.data.length + 1) s.data

/-- Column labels of the in-memory table after the derive block: the
five stored columns in header order, then the two derived columns in
assignment order (src/app.py lines 41-42). -/
def derivedCols : List String :=
  ["Project Name", "Description", "Status", "Start Date", "Due Date",
   "Days Left", "Progress"]

/-- Rendering of a parsed date cell on export, abstracted through the
epoch-day model of dates; no claim inspects its exact text. -/
def showDay (d : Int) : String := toString d

/-- Rendering of the Progress cell on export; a missing mapping (NaN)
prints as the empty field. -/
def showProgress : Option Nat → String
  | some n => toString n
  | none => ""

/-- One exported row of filtered_df: the five stored fields (Status
normalised) followed by the derived Days Left and Progress. -/
def toRowD (d : DRecord) : List String :=
  [d.projectName, d.description, d.status, showDay d.startDay,
   showDay d.dueDay, toString d.daysLeft, showProgress d.progress]

/-- The grid the export buttons serialize (src/app.py lines 159 and
163-164): the filtered table with its header.  An empty sheet yields the
bare pd.DataFrame() with no columns, modelled as the empty grid. -/
def csvTable (rs : List RawRecord) (now : Timestamp) (sel : List String) :
    List (List String) :=
  if rs = [] then []
  else derivedCols :: (filterByStatus (deriveAll now rs) sel).map toRowD

/-- A timestamp at midnight, used by the concrete examples. -/
def now0 : Timestamp := ⟨19723, 0⟩

/-- A concrete store: header plus three records (epoch days as text is
irrelevant to the store model, which holds raw cells). -/
def exStore : Store :=
  [headerRow,
   ["Alpha", "first", "Not Started", "2024-01-01", "2024-01-10"],
   ["Beta", "second", "On Hold", "2024-01-02", "2024-01-11"],
   ["Gamma", "third", "In Progress", "2024-01-03", "2024-01-12"]]

/-- Four concrete raw records carrying the four enum statuses. -/
def exRecords4 : List RawRecord :=
  [⟨"Alpha", "a", "In Progress", 19723, 19726⟩,
   ⟨"Beta", "b", "Completed", 19723, 19727⟩,
   ⟨"Gamma", "c", "Not Started", 19724, 19730⟩,
   ⟨"Delta", "d", "On Hold", 19724, 19733⟩]

/-- The four concrete records after load-and-derive at midnight. -/
def exTable4 : List DRecord := deriveAll now0 exRecords4

/-- Two concrete raw records, used for the export round-trip example. -/
def exRecords2 : List RawRecord :=
  [⟨"Alpha", "a", "In Progress", 19723, 19726⟩,
   ⟨"Beta", "b", "Completed", 19723, 19727⟩]

/-- The exported grid (header plus two rows) of the two-record table
under the full-enum filter. -/
def exExport2 : List (List String) := csvTable exRecords2 now0 status_options

/-- A concrete record whose Status is outside the four-value enum. -/
def cancelledRec : RawRecord := ⟨"Zeta", "stale", "Cancelled", 19720, 19721⟩

/-- One hundred raw records of which exactly 29 are on track. -/
def bigRecords : List RawRecord :=
  List.replicate 29 ⟨"P", "x", "Completed", 19723, 19730⟩ ++
  List.replicate 71 ⟨"Q", "y", "Not Started", 19723, 19730⟩

/-- The hundred-record table after load-and-derive. -/
def bigTable : List DRecord := deriveAll now0 bigRecords

/-- A filtered-style grid whose free-text cells carry a comma, quotes
and a line break. -/
def messyGrid : List (List String) :=
  [derivedCols,
   ["Launch, phase \"2\"", "first line\nsecond line", "In Progress",
    "2024-01-01", "2024-01-31", "3", "50"]]

/-- The progress_map lookup misses exactly the statuses outside the
four-value enum. -/
lemma progress_map_eq_none (s : String) :
    progress_map s = none ↔ s ∉ status_options := by
  unfold progress_map status_options
  split_ifs with h1 h2 h3 h4 <;> simp_all

/-- List.contains agrees with membership on strings. -/
lemma contains_iff (l : List String) (s : String) :
    l.contains s = true ↔ s ∈ l := by
  simp [List.contains]

/-- C1 (counterexample): updating the Status of the 3rd in-memory record
(pandas index 2) on a store of header plus three records writes
"Completed" into store cell (row 4, column 3) — altering that cell — and
writes nothing at (row 5, column 3), which does not even exist.  This
refutes the claimed target coordinates (row 5, column 3). -/
theorem C1_update_row_counterexample :
    getCell (updateStatus exStore 2 "Completed") 4 3 = some "Completed" ∧
    getCell exStore 4 3 = some "In Progress" ∧
    getCell (updateStatus exStore 2 "Completed") 5 3 = none := by decide

/-- C1 (amended): submitting the per-record status-update form for the
record at 0-based in-memory index i writes the new Status to the backing
store at (row = i + 2, column 3) — one header row plus the 1-indexing
offset — and leaves every other cell untouched; for the 3rd record
(index 2) the target is (row 4, column 3). -/
theorem C1_update_cell_coordinates (s : Store) (i : Nat) (v : String) (row : Row)
    (hrow : s[i + 1]? = some row) (hlen : 2 < row.length) :
    getCell (updateStatus s i v) (i + 2) 3 = some v ∧
    ∀ r c : Nat, ¬(r = i + 2 ∧ c = 3) →
      getCell (updateStatus s i v) r c = getCell s r c := by
  have hi : i + 1 < s.length := (List.getElem?_eq_some.mp hrow).1
  have h21 : i + 2 - 1 = i + 1 := by omega
  have hupd : updateStatus s i v = s.set (i + 1) (row.set 2 v) := by
    unfold updateStatus update_cell
    rw [h21, hrow]
  constructor
  · rw [hupd]
    unfold getCell
    rw [h21, List.getElem?_set_self hi]
    show (row.set 2 v)[(2 : Nat)]? = some v
    exact List.getElem?_set_self hlen
  · intro r c hrc
    rw [hupd]
    unfold getCell
    by_cases h1 : r - 1 = i + 1
    · have hr : r = i + 2 := by omega
      have hc2 : c - 1 ≠ 2 := by omega
      rw [h1, List.getElem?_set_self hi, hrow]
      show (row.set 2 v)[c - 1]? = row[c - 1]?
      exact List.getElem?_set_ne (fun e => hc2 e.symm)
    · rw [List.getElem?_set_ne (fun e => h1 e.symm)]

/-- C1 (witness): on the concrete store the amended coordinates are
exercised at the 3rd record, and the untouched-cell clause at (2, 3). -/
theorem C1_update_cell_coordinates_witness :
    getCell (updateStatus exStore 2 "Completed") 4 3 = some "Completed" ∧
    getCell (updateStatus exStore 2 "Completed") 2 3 = getCell exStore 2 3 :=
  ⟨(C1_update_cell_coordinates exStore 2 "Completed"
      ["Gamma", "third", "In Progress", "2024-01-03", "2024-01-12"]
      (by decide) (by decide)).1,
   (C1_update_cell_coordinates exStore 2 "Completed"
      ["Gamma", "third", "In Progress", "2024-01-03", "2024-01-12"]
      (by decide) (by decide)).2 2 3 (by omega)⟩

/-- C2: for every loaded record, the derived Progress is the progress_map
lookup on the stripped, title-cased Status, and it is none — with no
error raised, the derivation being total — exactly when that normalised
Status falls outside the four-value enum. -/
theorem C2_progress_mapping (now : Timestamp) (r : RawRecord) :
    (deriveRecord now r).progress = progress_map (pyTitle (pyStrip r.status)) ∧
    ((deriveRecord now r).progress = none ↔
      pyTitle (pyStrip r.status) ∉ status_options) :=
  ⟨rfl, progress_map_eq_none (pyTitle (pyStrip r.status))⟩

/-- C3 (code-bug evidence): because pd.Timestamp.today() carries the
wall-clock time of day, a record whose Due Date is three days ahead of
the current date gets Days Left = 2 — not the specified 3 — whenever the
second within the current day is nonzero. -/
theorem C3_days_left_off_by_one (d : Int) (sec : Nat) (r : RawRecord)
    (h0 : 0 < sec) (h1 : sec < 86400) (hdue : r.dueDay = d + 3) :
    (deriveRecord ⟨d, sec⟩ r).daysLeft = 2 := by
  show timedeltaDays ⟨r.dueDay, 0⟩ ⟨d, sec⟩ = 2
  unfold timedeltaDays
  have he : (r.dueDay - d) * 86400 + ((0 : Nat) : Int) - (sec : Int)
      = 259200 - (sec : Int) := by
    rw [hdue]; push_cast; ring
  rw [he, Int.fdiv_eq_ediv _ (by norm_num)]
  omega

/-- C3 (witness): at noon of epoch day 19723 (2024-01-01 12:00:00), a
record due on day 19726 (2024-01-04) derives Days Left = 2. -/
theorem C3_days_left_off_by_one_witness :
    (deriveRecord ⟨19723, 43200⟩
      ⟨"Launch", "", "In Progress", 19723, 19726⟩).daysLeft = 2 :=
  C3_days_left_off_by_one 19723 43200 _ (by decide) (by decide) (by decide)

/-- C4 (counterexample): a loaded record whose normalised Status is
outside the enum ("Cancelled") is dropped even by the full four-value
filter, so filtering by the full Status set does not return every table
unchanged. -/
theorem C4_full_filter_counterexample :
    filterByStatus (deriveAll now0 [cancelledRec]) status_options ≠
      deriveAll now0 [cancelledRec] := by decide

/-- C4 (amended): filtering is pure and yields exactly the subset of the
table whose Status lies in the selected set, in the original row order
(a sublist); filtering by the full four-value set returns the table
unchanged provided every record's Status lies in that set; filtering by
the empty selection yields zero rows. -/
theorem C4_filter_characterisation (rs : List DRecord) (sel : List String) :
    (∀ d, d ∈ filterByStatus rs sel ↔ d ∈ rs ∧ d.status ∈ sel) ∧
    (filterByStatus rs sel).Sublist rs ∧
    ((∀ d ∈ rs, d.status ∈ status_options) →
      filterByStatus rs status_options = rs) ∧
    filterByStatus rs [] = [] := by
  refine ⟨?_, List.filter_sublist rs, ?_, ?_⟩
  · intro d
    rw [filterByStatus, List.mem_filter, contains_iff]
  · intro h
    exact List.filter_eq_self.mpr fun d hd => (contains_iff _ _).mpr (h d hd)
  · exact List.filter_eq_nil_iff.mpr fun d _ => by simp

/-- C4 (witness): the three clauses with a hypothesis, exercised on the
concrete four-record table whose statuses all lie in the enum. -/
theorem C4_filter_characterisation_witness :
    ((deriveRecord now0 ⟨"Alpha", "a", "In Progress", 19723, 19726⟩) ∈
        filterByStatus exTable4 status_options ↔
      (deriveRecord now0 ⟨"Alpha", "a", "In Progress", 19723, 19726⟩) ∈ exTable4 ∧
        (deriveRecord now0 ⟨"Alpha", "a", "In Progress", 19723, 19726⟩).status ∈
          status_options) ∧
    filterByStatus exTable4 status_options = exTable4 :=
  ⟨(C4_filter_characterisation exTable4 status_options).1 _,
   (C4_filter_characterisation exTable4 status_options).2.2.1 (by decide)⟩

/-- C5 (counterexample): on the hundred-record table with 29 on-track
records, the exact quotient 29/100 scaled by 100 truncates to 29, but
the program's binary64 evaluation rounds 29/100 up to the nearest
double and the product down to 28.999999999999996, so int() yields 28 —
the summary percentage does not equal the exact truncated value. -/
theorem C5_float_rounding_counterexample :
    onTrackCount bigTable = 29 ∧ bigTable.length = 100 ∧
    summaryPct bigTable = 28 ∧
    onTrackCount bigTable * 100 / bigTable.length = 29 := by decide

/-- C5 (amended): the summary's on-track percentage is int() applied to
the double-precision evaluation of (on-track count / total) * 100; on
the spec's four-record instance with one record per enum status this
agrees with the exact truncation — the on-track count is 2 and the
percentage is 50 — while at 29 on-track records of 100 the float
rounding yields 28, one below the exact value. -/
theorem C5_summary_percentage_float :
    onTrackCount exTable4 = 2 ∧ summaryPct exTable4 = 50 ∧
    summaryPct bigTable = 28 := by decide

/-- C6: submitting the add form with a non-empty Project Name appends
exactly one row holding the five field values verbatim, the two dates
rendered as ISO YYYY-MM-DD strings, and leaves every existing row of the
store as it was. -/
theorem C6_add_appends_one_row (s : Store) (pname desc status : String)
    (sdate ddate : PyDate) (h : pname ≠ "") :
    addProject s pname desc status sdate ddate
      = s ++ [[pname, desc, status, dateStr sdate, dateStr ddate]] ∧
    (addProject s pname desc status sdate ddate).length = s.length + 1 ∧
    ∀ k, k < s.length →
      (addProject s pname desc status sdate ddate)[k]? = s[k]? := by
  have he : addProject s pname desc status sdate ddate
      = s ++ [[pname, desc, status, dateStr sdate, dateStr ddate]] := by
    unfold addProject append_row
    rw [if_neg h]
  refine ⟨he, ?_, ?_⟩
  · rw [he, List.length_append]
    rfl
  · intro k hk
    rw [he, List.getElem?_append_left hk]

/-- C6 (witness): the spec's concrete example — adding "Launch",
In Progress, 2024-01-01 to 2024-01-31 — appended to the concrete store,
with the ISO date rendering evaluated. -/
theorem C6_add_appends_one_row_witness :
    addProject exStore "Launch" "" "In Progress" ⟨2024, 1, 1⟩ ⟨2024, 1, 31⟩
      = exStore ++ [["Launch", "", "In Progress", "2024-01-01", "2024-01-31"]] ∧
    (addProject exStore "Launch" "" "In Progress" ⟨2024, 1, 1⟩ ⟨2024, 1, 31⟩).length
      = exStore.length + 1 :=
  ⟨(C6_add_appends_one_row exStore "Launch" "" "In Progress"
      ⟨2024, 1, 1⟩ ⟨2024, 1, 31⟩ (by decide)).1,
   (C6_add_appends_one_row exStore "Launch" "" "In Progress"
      ⟨2024, 1, 1⟩ ⟨2024, 1, 31⟩ (by decide)).2.1⟩

/-- C7: the header invariant — on a store with zero rows the setup block
appends the fixed five-column header exactly once, on any other store it
is a no-op, and both write operations (the add-form append and the
status-update write at row i + 2, column 3) preserve the header in
row 1. -/
theorem C7_header_invariant :
    (∀ s : Store, s.length = 0 → initSheet s = s ++ [headerRow]) ∧
    (∀ s : Store, s.length ≠ 0 → initSheet s = s) ∧
    (∀ (s : Store) (r : Row), s[0]? = some headerRow →
      (append_row s r)[0]? = some headerRow) ∧
    (∀ (s : Store) (i : Nat) (v : String), s[0]? = some headerRow →
      (updateStatus s i v)[0]? = some headerRow) := by
  refine ⟨?_, ?_, ?_, ?_⟩
  · intro s h
    unfold initSheet append_row
    rw [if_pos h]
  · intro s h
    unfold initSheet
    rw [if_neg h]
  · intro s r h
    have h0 : 0 < s.length := (List.getElem?_eq_some.mp h).1
    rw [append_row, List.getElem?_append_left h0, h]
  · intro s i v h
    unfold updateStatus update_cell
    cases hm : s[i + 2 - 1]? with
    | none => exact h
    | some r =>
      have h21 : i + 2 - 1 = i + 1 := by omega
      rw [List.getElem?_set_ne (by omega), h]

/-- C7 (witness): all four clauses at concrete stores — the empty store
gains the header, a non-empty store is untouched, and both writes keep
the header in row 1. -/
theorem C7_header_invariant_witness :
    initSheet ([] : Store) = [] ++ [headerRow] ∧
    initSheet exStore = exStore ∧
    (append_row exStore ["Delta", "", "Not Started", "x", "y"])[0]?
      = some headerRow ∧
    (updateStatus exStore 1 "Completed")[0]? = some headerRow :=
  ⟨C7_header_invariant.1 [] rfl,
   C7_header_invariant.2.1 exStore (by decide),
   C7_header_invariant.2.2.1 exStore ["Delta", "", "Not Started", "x", "y"]
     (by decide),
   C7_header_invariant.2.2.2 exStore 1 "Completed" (by decide)⟩

/-- C9: for any selection drawn from the four-value selector, every row
of the filtered view carries a normalised Status inside the enum, its
Progress lookup is defined (so int(row["Progress"]) never sees the
undefined value), and the status-selector index lookup on
status_options succeeds. -/
theorem C9_filtered_rows_safe (sel : List String) (now : Timestamp)
    (rs : List RawRecord) (d : DRecord) (hsel : sel ⊆ status_options)
    (hd : d ∈ filterByStatus (deriveAll now rs) sel) :
    d.status ∈ status_options ∧ d.progress ≠ none ∧
    List.indexOf d.status status_options < status_options.length := by
  obtain ⟨hmem, hcont⟩ := List.mem_filter.mp hd
  have hstat : d.status ∈ sel := (contains_iff sel d.status).mp hcont
  have hopt : d.status ∈ status_options := hsel hstat
  obtain ⟨r, _, hr⟩ := List.mem_map.mp hmem
  have hprog : d.progress = progress_map d.status := by rw [← hr]; rfl
  refine ⟨hopt, ?_, List.indexOf_lt_length.mpr hopt⟩
  rw [hprog]
  intro hnone
  exact (progress_map_eq_none d.status).mp hnone hopt

/-- C9 (witness): a completed record filtered under the singleton
selection has an enum Status, a defined Progress and a valid selector
index. -/
theorem C9_filtered_rows_safe_witness :
    (deriveRecord now0 ⟨"Beta", "b", "Completed", 19723, 19727⟩).status
      ∈ status_options ∧
    (deriveRecord now0 ⟨"Beta", "b", "Completed", 19723, 19727⟩).progress
      ≠ none ∧
    List.indexOf
      (deriveRecord now0 ⟨"Beta", "b", "Completed", 19723, 19727⟩).status
      status_options < status_options.length :=
  C9_filtered_rows_safe ["Completed"] now0
    [⟨"Beta", "b", "Completed", 19723, 19727⟩] _ (by decide) (by decide)

/-- C10: on a non-empty table the export serializes the filtered table
as derived, not just the five stored fields: the header is the stored
five-column header extended by Days Left and Progress, and every data
row is the seven-cell rendering of a filtered derived record, with its
Days Left and Progress in cells 6 and 7. -/
theorem C10_export_includes_derived (rs : List RawRecord) (now : Timestamp)
    (sel : List String) (h : rs ≠ []) :
    (csvTable rs now sel).head? = some (headerRow ++ ["Days Left", "Progress"]) ∧
    ∀ row ∈ (csvTable rs now sel).drop 1,
      ∃ d ∈ filterByStatus (deriveAll now rs) sel,
        row = toRowD d ∧ row.length = 7 ∧
        row[5]? = some (toString d.daysLeft) ∧
        row[6]? = some (showProgress d.progress) := by
  unfold csvTable
  rw [if_neg h]
  refine ⟨rfl, ?_⟩
  intro row hrow
  rw [List.drop_one, List.tail_cons] at hrow
  obtain ⟨d, hd, hde⟩ := List.mem_map.mp hrow
  exact ⟨d, hd, hde.symm, by rw [← hde]; rfl, by rw [← hde]; rfl, by rw [← hde]; rfl⟩

/-- C10 (witness): the two-record export carries the extended header,
and its first data row ends with the derived Days Left and Progress. -/
theorem C10_export_includes_derived_witness :
    (csvTable exRecords2 now0 status_options).head?
      = some (headerRow ++ ["Days Left", "Progress"]) :=
  (C10_export_includes_derived exRecords2 now0 status_options (by decide)).1

/-- Unfolding joinSep on a list of at least two pieces. -/
lemma joinSep_cons (sep : Char) (r : List Char) (rs : List (List Char))
    (h : rs ≠ []) : joinSep sep (r :: rs) = r ++ sep :: joinSep sep rs := by
  cases rs with
  | nil => exact absurd rfl h
  | cons b bs => rfl

/-- Rebuilding a string from its character list is the identity. -/
lemma stringMk_data (s : String) : String.mk s.data = s := rfl

/-- A character of a simple cell is no delimiter, quote or line feed. -/
lemma simpleCell_mem (c : String) (h : simpleCell c = true) (x : Char)
    (hx : x ∈ c.data) : x ≠ ',' ∧ x ≠ '"' ∧ x ≠ '\n' := by
  have hb := List.all_eq_true.mp h x hx
  simp only [Bool.and_eq_true, decide_eq_true_eq] at hb
  exact ⟨hb.1.1.1, hb.1.1.2, hb.1.2⟩

/-- parseQuoted step: a doubled quote adds one quote to the cell. -/
lemma parseQuoted_step_qq (acc rest : List Char) :
    parseQuoted acc ('"' :: '"' :: rest) = parseQuoted (acc ++ ['"']) rest := by
  simp [parseQuoted]

/-- parseQuoted step: a quote followed by a non-quote closes the cell. -/
lemma parseQuoted_step_close (acc : List Char) (d : Char) (rest : List Char)
    (hd : d ≠ '"') :
    parseQuoted acc ('"' :: d :: rest) = some (acc, d :: rest) := by
  simp [parseQuoted, hd]

/-- parseQuoted step: an ordinary character is appended to the cell. -/
lemma parseQuoted_step_other (acc : List Char) (c : Char) (rest : List Char)
    (hc : c ≠ '"') :
    parseQuoted acc (c :: rest) = parseQuoted (acc ++ [c]) rest := by
  conv_lhs => rw [parseQuoted.eq_def]
  dsimp only
  rw [if_neg hc]

/-- Reading a quoted body: the writer's escaped cell, the closing quote
and a following non-quote character parse back to exactly the cell. -/
lemma parseQuoted_escQuote (cs : List Char) (acc : List Char) (d : Char)
    (rest : List Char) (hd : d ≠ '"') :
    parseQuoted acc (escQuote cs ++ '"' :: d :: rest)
      = some (acc ++ cs, d :: rest) := by
  induction cs generalizing acc with
  | nil =>
    simpa [escQuote] using parseQuoted_step_close acc d rest hd
  | cons c cs ih =>
    by_cases hc : c = '"'
    · subst hc
      have h1 : escQuote ('"' :: cs) ++ '"' :: d :: rest
          = '"' :: '"' :: (escQuote cs ++ '"' :: d :: rest) := by
        simp [escQuote]
      rw [h1, parseQuoted_step_qq, ih]
      simp
    · have h1 : escQuote (c :: cs) ++ '"' :: d :: rest
          = c :: (escQuote cs ++ '"' :: d :: rest) := by
        simp [escQuote, hc]
      rw [h1, parseQuoted_step_other _ _ _ hc, ih]
      simp

/-- Reading a bare cell: delimiter-free and LF-free text followed by a
terminator parses back to exactly that text. -/
lemma parseUnquoted_clean (cs : List Char) (d : Char) (rest : List Char)
    (hcs : ∀ x ∈ cs, x ≠ ',' ∧ x ≠ '\n') (hd : d = ',' ∨ d = '\n') :
    parseUnquoted (cs ++ d :: rest) = (cs, d :: rest) := by
  induction cs with
  | nil => rcases hd with h | h <;> subst h <;> simp [parseUnquoted]
  | cons c cs ih =>
    have hc := hcs c (by simp)
    have h2 : ∀ x ∈ cs, x ≠ ',' ∧ x ≠ '\n' := fun x hx => hcs x (by simp [hx])
    simp [parseUnquoted, hc.1, hc.2, ih h2]

/-- Reading one cell: an encoded cell followed by a delimiter or a line
terminator parses back to the original cell text. -/
lemma parseCell_encodeCell (s : String) (d : Char) (rest : List Char)
    (hd : d = ',' ∨ d = '\n') :
    parseCell (encodeCell s ++ d :: rest) = some (s.data, d :: rest) := by
  have hdq : d ≠ '"' := by rcases hd with h | h <;> subst h <;> decide
  by_cases hs : simpleCell s
  · rw [encodeCell, if_pos hs]
    cases he : s.data with
    | nil =>
      rcases hd with h | h <;> subst h <;> simp [parseCell, parseUnquoted]
    | cons c cs =>
      have hmem : ∀ x ∈ c :: cs, x ≠ ',' ∧ x ≠ '\n' := by
        intro x hx
        have hx2 := simpleCell_mem s hs x (by rw [he]; exact hx)
        exact ⟨hx2.1, hx2.2.2⟩
      have hc : c ≠ '"' :=
        (simpleCell_mem s hs c (by rw [he]; exact List.mem_cons_self c cs)).2.1
      have h2 := parseUnquoted_clean (c :: cs) d rest hmem hd
      rw [List.cons_append] at h2
      rw [List.cons_append,
        show parseCell (c :: (cs ++ d :: rest))
            = if c = '"' then parseQuoted [] (cs ++ d :: rest)
              else some (parseUnquoted (c :: (cs ++ d :: rest))) from rfl]
      rw [if_neg hc, h2]
  · rw [encodeCell, if_neg hs]
    have h1 : ('"' :: (escQuote s.data ++ ['"'])) ++ d :: rest
        = '"' :: (escQuote s.data ++ '"' :: d :: rest) := by
      simp
    rw [h1, parseCell]
    simp only [reduceIte]
    rw [parseQuoted_escQuote s.data [] d rest hdq]
    simp

/-- A serialized line is at least as long as its number of cells. -/
lemma length_joinSep_encode (r : List String) :
    r.length ≤ (joinSep ',' (r.map encodeCell)).length + 1 := by
  induction r with
  | nil => simp [joinSep]
  | cons c cs ih =>
    cases cs with
    | nil => simp [joinSep]
    | cons c2 cs2 =>
      rw [List.map_cons, joinSep_cons _ _ _ (by simp), List.length_append]
      simp only [List.length_cons] at ih ⊢
      omega

/-- Reading one line: a serialized row followed by anything parses back
to exactly that row, given fuel for its cells. -/
lemma parseRowAux_csvLine (r : List String) (fuel : ℕ) (rest : List Char)
    (hne : r ≠ []) (hfuel : r.length ≤ fuel) :
    parseRowAux fuel (csvLine r ++ rest) = some (r, rest) := by
  induction r generalizing fuel rest with
  | nil => exact absurd rfl hne
  | cons c cs ih =>
    cases fuel with
    | zero => exact absurd hfuel (by simp)
    | succ f =>
      cases cs with
      | nil =>
        have h1 : csvLine [c] ++ rest = encodeCell c ++ '\n' :: rest := by
          simp [csvLine, joinSep]
        rw [h1]
        simp only [parseRowAux, parseCell_encodeCell c '\n' rest (Or.inr rfl),
          stringMk_data]
      | cons c2 cs2 =>
        have h1 : csvLine (c :: c2 :: cs2) ++ rest
            = encodeCell c ++ ',' :: (csvLine (c2 :: cs2) ++ rest) := by
          rw [csvLine, csvLine, List.map_cons, joinSep_cons _ _ _ (by simp)]
          simp
        rw [h1]
        simp only [parseRowAux, parseCell_encodeCell c ',' _ (Or.inl rfl),
          stringMk_data]
        rw [ih f rest (by simp)
          (by simp only [List.length_cons] at hfuel ⊢; omega)]

/-- The serialized table is at least as long as its number of rows. -/
lemma length_flatten_ge (t : List (List String)) :
    t.length ≤ ((t.map csvLine).flatten).length := by
  induction t with
  | nil => simp
  | cons r rs ih =>
    simp only [List.map_cons, List.flatten_cons, List.length_append,
      List.length_cons]
    have h1 : 1 ≤ (csvLine r).length := by
      rw [csvLine, List.length_append]
      simp
    omega

/-- Reading the lines: the serialized table parses back to exactly its
rows, given fuel for its lines. -/
lemma parseRowsAux_flatten (t : List (List String)) (fuel : ℕ)
    (hrows : ∀ r ∈ t, r ≠ []) (hfuel : t.length ≤ fuel) :
    parseRowsAux fuel ((t.map csvLine).flatten) = some t := by
  induction t generalizing fuel with
  | nil => cases fuel <;> simp [parseRowsAux]
  | cons r rs ih =>
    cases fuel with
    | zero => exact absurd hfuel (by simp)
    | succ f =>
      have hinput : ((r :: rs).map csvLine).flatten
          = csvLine r ++ (rs.map csvLine).flatten := by
        simp
      have hne : csvLine r ++ (rs.map csvLine).flatten ≠ [] := by
        simp [csvLine]
      have hr : r ≠ [] := hrows r (by simp)
      have hflen : r.length ≤ (csvLine r ++ (rs.map csvLine).flatten).length + 1 := by
        have h1 := length_joinSep_encode r
        rw [List.length_append, csvLine, List.length_append]
        simp only [List.length_cons, List.length_nil]
        omega
      rw [hinput, parseRowsAux, if_neg hne,
        parseRowAux_csvLine r _ _ hr hflen]
      dsimp only
      rw [ih f (fun q hq => hrows q (List.mem_cons_of_mem _ hq))
        (by simp only [List.length_cons] at hfuel; omega)]

/-- C8: the CSV export round-trips — for every table of non-empty rows,
whatever text the cells hold (commas, quotes and line breaks included,
which the writer quotes minimally exactly as pandas to_csv does),
parsing the exported bytes recovers the same header and rows in the
same order. -/
theorem C8_csv_round_trip (t : List (List String))
    (hne : ∀ r ∈ t, r ≠ []) :
    parseCsv (toCsv t) = some t := by
  unfold parseCsv toCsv
  exact parseRowsAux_flatten t _ hne (Nat.le_succ_of_le (length_flatten_ge t))

/-- C8 (witness): the concrete two-record export, and a grid carrying a
comma, quotes and a line break in its text cells, both survive the
serialize-then-parse round trip. -/
theorem C8_csv_round_trip_witness :
    parseCsv (toCsv exExport2) = some exExport2 ∧
    parseCsv (toCsv messyGrid) = some messyGrid :=
  ⟨C8_csv_round_trip exExport2 (by decide),
   C8_csv_round_trip messyGrid (by decide)⟩

end ProjectTracker
